import Mathlib

/-!
Shallow embedding of the autocallable pricer (src/utils/pricing.py) and of the
historical backtest evaluator (src/utils/backtest.py).

Modelling conventions:
* Real-valued quantities (prices, barriers, rates, coupons) are rationals.
* Calendar timestamps are rationals measured in months, so that
  pandas `DateOffset(months=m)` becomes addition of `m` and the ordering of a
  `DatetimeIndex` becomes the ordering of rationals.
* Python's `round` on a float is modelled as exact round-half-to-even on the
  rational value (`pythonRound`); `int(math.ceil x)` is the rational ceiling.
* numpy's vectorised per-path operations in `price_autocall_mc` are expressed
  as per-path recursions, which is semantically identical because no path ever
  reads another path's state (each boolean mask row depends only on that row).
* `math.exp`, `math.log`, `math.sqrt` and the seeded normal stream of
  `np.random.default_rng(seed).standard_normal` are deterministic numeric
  routines; they enter the embedding as explicit function arguments, so every
  theorem quantifies over them.
-/

/-- Observation frequencies: the `ObsFreq` Literal of backtest.py and the dict
keys of `observations_per_year` in pricing.py. -/
inductive ObsFreq
  | annual
  | semiAnnual
  | quarterly
  | monthly
deriving DecidableEq

/-- pricing.py `observations_per_year` / backtest.py `_obs_per_year`: the dict
`{"annual": 1, "semi-annual": 2, "quarterly": 4, "monthly": 12}`. -/
def observations_per_year : ObsFreq → ℕ
  | .annual => 1
  | .semiAnnual => 2
  | .quarterly => 4
  | .monthly => 12

/-- types.py `ProductInputs` (the `underlying` display field is dropped). -/
structure ProductInputs where
  maturity_years : ℚ
  dip_style : String
  dip_strike_pct : ℚ
  dip_barrier_pct : ℚ
  autocall_barrier_pct : ℚ
  coupon_barrier_pct : ℚ
  annual_coupon_pct : ℚ
  memory_feature : Bool
  obs_frequency : ObsFreq
deriving DecidableEq

/-- types.py `MarketInputs` (the `currency` display field is dropped). -/
structure MarketInputs where
  stock_price : ℚ
  dividend_yield : ℚ
  interest_rate : ℚ
  volatility : ℚ
deriving DecidableEq

/-- Python's `round` to an integer: round half to even (banker's rounding),
modelled exactly on rationals. -/
def pythonRound (x : ℚ) : ℤ :=
  let n := ⌊x⌋
  let frac := x - n
  if frac < 1/2 then n
  else if 1/2 < frac then n + 1
  else if n % 2 = 0 then n else n + 1

/-- pricing.py `build_obs_steps`: observation step indices on the Monte Carlo
grid, `int(round(y / obs_per_y * steps_per_year))` for
`y in range(1, ceil(maturity * obs_per_y) + 1)`, clamped to
`max_step = int(round(maturity * steps_per_year))`. -/
def build_obs_steps (maturity_years : ℚ) (steps_per_year : ℕ) (freq : ObsFreq) : List ℤ :=
  let obs_per_y := observations_per_year freq
  let max_step := pythonRound (maturity_years * steps_per_year)
  (List.range' 1 (Int.toNat ⌈maturity_years * obs_per_y⌉)).map
    (fun (y : ℕ) => min (pythonRound ((y : ℚ) / obs_per_y * steps_per_year)) max_step)

/-- Minimum of a path, `np.min(paths, axis=1)` for one row (0 on an empty
path, which never arises: paths have `n_steps + 1 ≥ 1` points). -/
def pathMin : List ℚ → ℚ
  | [] => 0
  | p :: rest => rest.foldl min p

/-- One pass of pricing.py lines 94-107 for a single path: walking the prices
at the observation steps with the per-path alive state.  Returns the
`coupon_paid_flags` row and `call_obs_index` (as `none` for the -1 sentinel).
At observation `j` the coupon flag is `(s >= coup_bar) & alive_before` and the
call test is `(s >= ac_bar) & (call_obs_index < 0)`, exactly as in the source:
the flag at the call observation itself is still recorded. -/
def mcScan (acBar coupBar : ℚ) : List ℚ → ℕ → Option ℕ → List Bool × Option ℕ
  | [], _, called => ([], called)
  | s :: rest, j, called =>
    let alive := called.isNone
    let flag := alive && decide (coupBar ≤ s)
    let called2 := if alive ∧ acBar ≤ s then some j else called
    let r := mcScan acBar coupBar rest (j + 1) called2
    (flag :: r.1, r.2)

/-- pricing.py lines 79-83, one path: the DIP monitoring flag. American style
looks at the running minimum of the whole path, European only at `S_T`. -/
def mcDipped (dipAmer : Bool) (dipBar : ℚ) (path : List ℚ) : Bool :=
  if dipAmer then decide (pathMin path < dipBar) else decide (path.getLastD 0 < dipBar)

/-- pricing.py lines 123-126: coupons owed at maturity for an uncalled path,
`coupon_paid_flags.sum()` with memory, else the indicator `S_T >= coup_bar`. -/
def mcCouponsAtMaturity (memory : Bool) (coupBar sT : ℚ) (flags : List Bool) : ℚ :=
  if memory then (flags.countP id : ℚ) else if coupBar ≤ sT then 1 else 0

/-- pricing.py `100.0 + 100.0 * coupon * coupons_to_pay`. -/
def mcPayoffNoDip (coupon couponsToPay : ℚ) : ℚ := 100 + 100 * coupon * couponsToPay

/-- pricing.py line 131: `np.where(sT < dip_strk, 100.0 * (sT / dip_strk), 100.0)`. -/
def mcLossLeg (dipStrk sT : ℚ) : ℚ := if sT < dipStrk then 100 * (sT / dipStrk) else 100

/-- pricing.py line 132: `np.where(dipped, np.minimum(100.0, loss_leg), 100.0)`. -/
def mcPayoffFinal (dipped : Bool) (dipStrk sT : ℚ) : ℚ :=
  if dipped then min 100 (mcLossLeg dipStrk sT) else 100

/-- Per-path outcome of the Monte Carlo payoff machine: `call_obs_index`
(`none` for the -1 sentinel), the settlement amount written into `payoffs`,
the settlement time written into `pay_times`, and the `coupon_paid_flags` row. -/
structure MCPathResult where
  callIdx : Option ℕ
  payoff : ℚ
  payTime : ℚ
  flags : List Bool
deriving DecidableEq

/-- pricing.py lines 88-135 for one path: the full payoff state machine.
If called at observation `j` the payoff is
`100 + 100*coupon*coupons_to_pay` with `coupons_to_pay` either the number of
coupon flags among `flags[:j]` (memory) or `years_elapsed = j/obs_per_y`
(no memory), and `pay_times = j/obs_per_y`.  If never called, the payoff is
`min(payoff_no_dip, payoff_final)` at time `T`. -/
def mcEvalCore (memory dipAmer : Bool) (obsPerY : ℕ)
    (acBar coupBar dipBar dipStrk coupon T : ℚ)
    (path obsPrices : List ℚ) : MCPathResult :=
  let scan := mcScan acBar coupBar obsPrices 1 none
  match scan.2 with
  | some j =>
    let couponsToPay : ℚ :=
      if memory then ((scan.1.take j).countP id : ℚ) else (j : ℚ) / (obsPerY : ℚ)
    ⟨some j, mcPayoffNoDip coupon couponsToPay, (j : ℚ) / (obsPerY : ℚ), scan.1⟩
  | none =>
    let sT := path.getLastD 0
    let couponsToPay := mcCouponsAtMaturity memory coupBar sT scan.1
    let dipped := mcDipped dipAmer dipBar path
    ⟨none, min (mcPayoffNoDip coupon couponsToPay) (mcPayoffFinal dipped dipStrk sT), T, scan.1⟩

/-- Prices of one path sampled at the observation steps,
`paths[:, step] for step in obs_steps` for a single row. -/
def mc_obs_prices (prod : ProductInputs) (steps_per_year : ℕ) (path : List ℚ) : List ℚ :=
  (build_obs_steps prod.maturity_years steps_per_year prod.obs_frequency).map
    (fun st => path.getD st.toNat 0)

/-- pricing.py line 79, the test `prod.dip_style.lower().startswith("amer")`,
computed on the underlying character list: lower-case the characters and
compare the first four with those of "amer".  (Core's `String.toLower` and
`String.startsWith` walk byte positions by well-founded recursion, which the
kernel cannot evaluate; on the character list the same test is executable and
agrees with them character by character.) -/
def lower_starts_amer (s : String) : Bool :=
  (s.data.map Char.toLower).take 4 == ("amer").data

/-- Per-path evaluation of `price_autocall_mc` with the barriers unpacked from
`ProductInputs`/`MarketInputs` exactly as in pricing.py lines 44-57 and the DIP
style decided by `dip_style.lower().startswith("amer")`. -/
def mcEvalPath (prod : ProductInputs) (mkt : MarketInputs) (steps_per_year : ℕ)
    (path : List ℚ) : MCPathResult :=
  let s0 := mkt.stock_price
  let acBar := prod.autocall_barrier_pct / 100 * s0
  let coupBar := prod.coupon_barrier_pct / 100 * s0
  let dipBar := prod.dip_barrier_pct / 100 * s0
  let dipStrk := prod.dip_strike_pct / 100 * s0
  let coupon := prod.annual_coupon_pct / 100
  let dipAmer := lower_starts_amer prod.dip_style
  mcEvalCore prod.memory_feature dipAmer (observations_per_year prod.obs_frequency)
    acBar coupBar dipBar dipStrk coupon prod.maturity_years
    path (mc_obs_prices prod steps_per_year path)

/-- backtest.py `ProductSpec` (barriers and coupon already as fractions of the
launch level, e.g. `1.1` for 110%). -/
structure ProductSpec where
  maturity_years : ℚ
  obs_frequency : ObsFreq
  autocall_barrier : ℚ
  coupon_barrier : ℚ
  dip_barrier : ℚ
  annual_coupon : ℚ
  memory_feature : Bool
deriving DecidableEq

/-- backtest.py `_evaluate_autocall_path` lines 80-92: the observation loop over
the levels `lvl = ss.loc[:d].iloc[-1]`, threading
`(coupon_paid, coupons_count, memory_accrual)` and breaking at the first
autocall.  Returns `(call index, coupon_paid, coupons_count)` with the index
`none` when the loop runs out of observations. -/
def btLoop (memory : Bool) (coupBar acBar perCoupon : ℚ) :
    List ℚ → ℕ → ℚ → ℕ → ℕ → Option ℕ × ℚ × ℕ
  | [], _, cp, cc, _ => (none, cp, cc)
  | lvl :: rest, j, cp, cc, ma =>
    let s : ℚ × ℕ × ℕ :=
      if coupBar ≤ lvl then (cp + (ma + 1) * perCoupon, cc + (ma + 1), 0)
      else (cp, cc, if memory then ma + 1 else ma)
    if acBar ≤ lvl then (some j, s.1, s.2.1)
    else btLoop memory coupBar acBar perCoupon rest (j + 1) s.1 s.2.1 s.2.2

/-- Outcome of `_evaluate_autocall_path` before the record assembly: call
index, accumulated coupons, the principal fraction and the outcome class. -/
structure BTResult where
  callIdx : Option ℕ
  couponPaid : ℚ
  couponsCount : ℕ
  principal : ℚ
  outcomeType : String
deriving DecidableEq

/-- backtest.py `_evaluate_autocall_path` lines 76-102 on the list of
observation levels (price at each observation date divided by the launch
price): the coupon/autocall loop followed by the terminal branch, where
`last_lvl` is the level at the final observation date. -/
def btEval (spec : ProductSpec) (levels : List ℚ) : BTResult :=
  let n := observations_per_year spec.obs_frequency
  let r := btLoop spec.memory_feature spec.coupon_barrier spec.autocall_barrier
    (spec.annual_coupon / n) levels 1 0 0 0
  match r.1 with
  | some j => ⟨some j, r.2.1, r.2.2, 1, "Autocall"⟩
  | none =>
    let lastLvl := levels.getLastD 0
    if spec.dip_barrier ≤ lastLvl then ⟨none, r.2.1, r.2.2, 1, "Capital Redemption"⟩
    else ⟨none, r.2.1, r.2.2, lastLvl / spec.dip_barrier, "Capital Loss"⟩

/-- Modelled from the spec: the coupon rule of §4.3 step 2, written directly
from its words — "if level ≥ coupon barrier, pay a coupon equal to
`(missed_count + 1) × annual_coupon / obs_per_year` and reset the
missed-coupon counter to 0; else, if the memory feature is enabled, increment
the missed-coupon counter; if memory is disabled, the missed coupon is
forfeited" (here `perCoupon = annual_coupon / obs_per_year`). -/
def specCouponState (memory : Bool) (coupBar perCoupon lvl paid : ℚ) (missed : ℕ) : ℚ × ℕ :=
  if coupBar ≤ lvl then (paid + (missed + 1) * perCoupon, 0)
  else (paid, if memory then missed + 1 else missed)

/-- Modelled from the spec: total coupons paid over the observations, applying
`specCouponState` at every observation while alive and stopping after the
first observation at or above the autocall barrier (spec §4.3 step 3). -/
def specCouponPaid (memory : Bool) (coupBar acBar perCoupon : ℚ) :
    List ℚ → ℚ → ℕ → ℚ
  | [], paid, _ => paid
  | lvl :: rest, paid, missed =>
    let s := specCouponState memory coupBar perCoupon lvl paid missed
    if acBar ≤ lvl then s.1
    else specCouponPaid memory coupBar acBar perCoupon rest s.1 s.2

/-- numpy `searchsorted` (left) on a sorted index: the number of entries
strictly below the target, i.e. the insertion position. -/
def searchsorted (idx : List ℚ) (t : ℚ) : ℕ := idx.countP (fun d => decide (d < t))

/-- backtest.py `_build_observation_dates` lines 59-66 for one nominal date:
if the target is in the index keep it, otherwise take the entry at the
`searchsorted` position, falling back to the final index entry
(`prices_index[-1]`) when the position runs past the end. -/
def snapDate (idx : List ℚ) (t : ℚ) : ℚ :=
  if t ∈ idx then t
  else
    let pos := searchsorted idx t
    if idx.length ≤ pos then idx.getLastD 0 else idx.getD pos 0

/-- Nominal observation dates of `_build_observation_dates`:
`launch + DateOffset(months=int(12 * k / n_per_year))` for
`k in range(1, n_obs + 1)` with `n_obs = int(round(maturity_years * n_per_year))`.
`12 * k / n_per_year` is an exact integer because `n_per_year` divides 12.
Timestamps are in month units, so the offset is plain addition. -/
def nominal_observation_dates (launch : ℚ) (freq : ObsFreq) (maturity_years : ℚ) : List ℚ :=
  let n := observations_per_year freq
  (List.range' 1 (pythonRound (maturity_years * n)).toNat).map
    (fun k => launch + ((12 * k) / n : ℕ))

/-- backtest.py `_build_observation_dates`: each nominal date snapped into the
price index. -/
def build_observation_dates (launch : ℚ) (freq : ObsFreq) (maturity_years : ℚ)
    (prices_index : List ℚ) : List ℚ :=
  (nominal_observation_dates launch freq maturity_years).map (snapDate prices_index)

/-- backtest.py `_gen_launch_dates` lines 41-51.  The pandas `resample`
producing the anchor candidates is presentation-calendar machinery outside the
payoff logic, so the anchor list is taken as an input; the feasibility filter
and forward snapping are the source's: keep `d` when
`d + DateOffset(years=maturity) <= prices.index[-1]` and `d` is in the index,
otherwise snap to `index[searchsorted(d)]` and re-test the lifetime.
`DateOffset(years=m)` is `12 * m` months. -/
def gen_launch_dates (prices_index : List ℚ) (anchors : List ℚ) (maturity_years : ℚ) :
    List ℚ :=
  let lastDate := prices_index.getLastD 0
  anchors.filterMap (fun d =>
    if d + 12 * maturity_years ≤ lastDate then
      if d ∈ prices_index then some d
      else
        let nxt := prices_index.getD (searchsorted prices_index d) 0
        if nxt + 12 * maturity_years ≤ lastDate then some nxt else none
    else none)

/-- One row of the backtest result frame (`_evaluate_autocall_path`'s returned
dict; `end` is a Lean keyword, hence `endDate`; plot-only fields kept). -/
structure BTRecord where
  launch : ℚ
  endDate : ℚ
  called : Bool
  coupons : ℕ
  couponPaid : ℚ
  principal : ℚ
  totalReturn : ℚ
  irrSimple : ℚ
  durationDays : ℚ
  outcomeType : String
  obsCount : ℕ
  obsReached : ℕ
deriving DecidableEq

/-- Pandas `prices.loc[:d].iloc[-1]`: the last price at or before `d` (the series is
forward-filled in the source, which is the same operation). -/
def priceAt (prices : List (ℚ × ℚ)) (d : ℚ) : ℚ :=
  ((prices.filter (fun p => decide (p.1 ≤ d))).getLastD (0, 0)).2

/-- backtest.py `_evaluate_autocall_path`: levels are prices at the observation
dates divided by the launch price, the loop and terminal branch are `btEval`,
and the record is assembled as in lines 104-121 (`days = max(1, Δ)` stays in
month units here, so `irr_simple` uses `12/days` in place of `365.25/days`). -/
def evaluate_autocall_path (prices : List (ℚ × ℚ)) (launch : ℚ) (spec : ProductSpec) :
    BTRecord :=
  let idx := prices.map (fun p => p.1)
  let s0 := priceAt prices launch
  let obsDates := build_observation_dates launch spec.obs_frequency spec.maturity_years idx
  let levels := obsDates.map (fun d => priceAt prices d / s0)
  let r := btEval spec levels
  let maturity := match r.callIdx with
    | some j => (obsDates.take j).getLastD launch
    | none => obsDates.getLastD launch
  let days : ℚ := max 1 (maturity - launch)
  let totalReturn := r.principal - 1 + r.couponPaid
  ⟨launch, maturity, r.callIdx.isSome, r.couponsCount, r.couponPaid, r.principal,
    totalReturn, totalReturn * (12 / days), days, r.outcomeType, obsDates.length,
    match r.callIdx with | some j => j | none => obsDates.length⟩

/-- A pandas DataFrame of backtest records: the rows plus the column labels. -/
structure PdDataFrame where
  records : List BTRecord
  columns : List String
deriving DecidableEq

/-- Column labels of the dict returned by `_evaluate_autocall_path`. -/
def btRecordColumns : List String :=
  ["launch", "end", "called", "coupons", "coupon_paid", "principal", "total_return",
   "irr_simple", "duration_days", "outcome_type", "obs_count", "obs_reached"]

/-- Pandas `pd.DataFrame.from_records`: the columns come from the records' keys, so a
frame built from zero records has no columns at all. -/
def pdFromRecords (rs : List BTRecord) : PdDataFrame :=
  ⟨rs, if rs.isEmpty then [] else btRecordColumns⟩

/-- Insertion of one record into a list sorted by the `launch` field. -/
def insertByLaunch (r : BTRecord) : List BTRecord → List BTRecord
  | [] => [r]
  | s :: rest => if r.launch ≤ s.launch then r :: s :: rest else s :: insertByLaunch r rest

/-- Stable sort of records by the `launch` field. -/
def sortByLaunch : List BTRecord → List BTRecord
  | [] => []
  | r :: rest => insertByLaunch r (sortByLaunch rest)

/-- Pandas `DataFrame.sort_values(key)`: sorting by a column that the frame does not
have raises `KeyError`, which the embedding returns as `Except.error`. -/
def pdSortValues (df : PdDataFrame) (key : String) : Except String PdDataFrame :=
  if key ∈ df.columns then Except.ok ⟨sortByLaunch df.records, df.columns⟩
  else Except.error ("KeyError: " ++ key)

/-- backtest.py `run_backtest` lines 124-126:
`pd.DataFrame.from_records([_evaluate_autocall_path(prices, d, spec) for d in
launches]).sort_values("launch")`, with the launches produced by
`_gen_launch_dates` (anchor candidates passed in, see `gen_launch_dates`). -/
def run_backtest (prices : List (ℚ × ℚ)) (anchors : List ℚ) (spec : ProductSpec) :
    Except String (List BTRecord) :=
  let launches := gen_launch_dates (prices.map (fun p => p.1)) anchors spec.maturity_years
  let df := pdFromRecords (launches.map (fun d => evaluate_autocall_path prices d spec))
  match pdSortValues df ("launch") with
  | Except.ok sorted => Except.ok sorted.records
  | Except.error e => Except.error e

/-- GBM path of pricing.py lines 72-76 for one row:
`x_i = x_{i-1} + drift + diff * z_i` accumulated from `x0 = log(max(1e-12, s0))`
and mapped through `exp`. -/
def simPath (expFn : ℚ → ℚ) (x0 drift diff : ℚ) (zs : List ℚ) : List ℚ :=
  (zs.scanl (fun x z => x + drift + diff * z) x0).map expFn

/-- Output of `price_autocall_mc`: the present value and the
ensemble-level diagnostics the claims refer to. -/
structure MCOutput where
  pv : ℚ
  payoffs : List ℚ
  payTimes : List ℚ
  callIdxs : List (Option ℕ)
  probMaturity : ℚ
  probCapitalLoss : ℚ
  expectedDuration : ℚ
deriving DecidableEq

/-- pricing.py `price_autocall_mc`: grid setup (lines 59-62), one GBM path per
row driven by the seeded normal stream (lines 64-76), per-path payoff machine
(lines 78-135) and the discounted aggregation (lines 137-147).  `expFn`,
`logFn`, `sqrtFn` stand for the deterministic libm routines and `normalDraw`
for the deterministic stream `np.random.default_rng(seed).standard_normal`,
indexed by seed, path row and step column. -/
def price_autocall_mc (expFn logFn sqrtFn : ℚ → ℚ)
    (normalDraw : Option ℕ → ℕ → ℕ → ℚ)
    (prod : ProductInputs) (mkt : MarketInputs) (nPaths stepsPerYear : ℕ)
    (seed : Option ℕ) : MCOutput :=
  let T := prod.maturity_years
  let s0 := mkt.stock_price
  let r := mkt.interest_rate
  let q := mkt.dividend_yield
  let vol := mkt.volatility
  let nSteps := (pythonRound (T * stepsPerYear)).toNat
  let dt := T / max 1 (nSteps : ℚ)
  let drift := (r - q - vol * vol / 2) * dt
  let diff := vol * sqrtFn dt
  let x0 := logFn (max (1 / 1000000000000) s0)
  let results := (List.range nPaths).map (fun i =>
    mcEvalPath prod mkt stepsPerYear
      (simPath expFn x0 drift diff ((List.range nSteps).map (fun k => normalDraw seed i k))))
  let pvContribs := results.map (fun res => res.payoff * expFn (-(r * res.payTime)))
  let pv := (pvContribs.foldl (· + ·) 0) / (nPaths : ℚ)
  let probMat := ((results.countP (fun res => res.callIdx.isNone)) : ℚ) / (nPaths : ℚ)
  let probLoss := ((results.countP (fun res => decide (res.payoff < 100))) : ℚ) / (nPaths : ℚ)
  let eem := ((results.map (fun res => res.payTime)).foldl (· + ·) 0) / (nPaths : ℚ)
  ⟨pv, results.map (fun res => res.payoff), results.map (fun res => res.payTime),
    results.map (fun res => res.callIdx), probMat, probLoss, eem⟩

/-! ## Helper lemmas -/

/-- Once a path is called its `call_obs_index` never changes: the mask
`(s >= ac_bar) & (call_obs_index < 0)` is false from then on. -/
lemma mcScan_some (ac cb : ℚ) :
    ∀ (l : List ℚ) (j i : ℕ), (mcScan ac cb l j (some i)).2 = some i := by
  intro l
  induction l with
  | nil => intro j i; rfl
  | cons s rest ih => intro j i; simp [mcScan, ih]

/-- The call index of the per-path Monte Carlo machine is the index computed by
the observation scan. -/
lemma mcEvalCore_callIdx (memory dipAmer : Bool) (obsPerY : ℕ)
    (acBar coupBar dipBar dipStrk coupon T : ℚ) (path obsPrices : List ℚ) :
    (mcEvalCore memory dipAmer obsPerY acBar coupBar dipBar dipStrk coupon T
      path obsPrices).callIdx = (mcScan acBar coupBar obsPrices 1 none).2 := by
  unfold mcEvalCore
  cases h : (mcScan acBar coupBar obsPrices 1 none).2 with
  | none => simp [h]
  | some j => simp [h]

/-- The call index of the backtest evaluator is the index computed by its
observation loop. -/
lemma btEval_callIdx (spec : ProductSpec) (levels : List ℚ) :
    (btEval spec levels).callIdx
      = (btLoop spec.memory_feature spec.coupon_barrier spec.autocall_barrier
          (spec.annual_coupon / observations_per_year spec.obs_frequency)
          levels 1 0 0 0).1 := by
  unfold btEval
  cases h : (btLoop spec.memory_feature spec.coupon_barrier spec.autocall_barrier
      (spec.annual_coupon / observations_per_year spec.obs_frequency) levels 1 0 0 0).1 with
  | none => simp only [h]; split <;> rfl
  | some j => simp [h]

/-- The coupon total of the backtest evaluator is the coupon accumulator of its
observation loop. -/
lemma btEval_couponPaid (spec : ProductSpec) (levels : List ℚ) :
    (btEval spec levels).couponPaid
      = (btLoop spec.memory_feature spec.coupon_barrier spec.autocall_barrier
          (spec.annual_coupon / observations_per_year spec.obs_frequency)
          levels 1 0 0 0).2.1 := by
  unfold btEval
  cases h : (btLoop spec.memory_feature spec.coupon_barrier spec.autocall_barrier
      (spec.annual_coupon / observations_per_year spec.obs_frequency) levels 1 0 0 0).1 with
  | none => simp only [h]; split <;> rfl
  | some j => simp [h]

/-! ## Claim theorems -/

/-- An uncalled path settles for at most the principal leg, which is capped at
100 (shared helper for the claims about uncalled paths). -/
lemma mcEvalCore_uncalled_le_par (memory dipAmer : Bool) (obsPerY : ℕ)
    (acBar coupBar dipBar dipStrk coupon T : ℚ) (path obsPrices : List ℚ)
    (h : (mcEvalCore memory dipAmer obsPerY acBar coupBar dipBar dipStrk coupon T
      path obsPrices).callIdx = none) :
    (mcEvalCore memory dipAmer obsPerY acBar coupBar dipBar dipStrk coupon T
      path obsPrices).payoff ≤ 100 := by
  cases hs : (mcScan acBar coupBar obsPrices 1 none).2 with
  | some j => simp only [mcEvalCore, hs] at h; simp at h
  | none =>
    simp only [mcEvalCore, hs]
    refine le_trans (min_le_right _ _) ?_
    unfold mcPayoffFinal
    split
    · exact min_le_left _ _
    · exact le_refl _

/-- Claim C10: a simulated path that is never autocalled settles for at most
100 per 100 notional, because the settlement is the minimum of the
coupon-inclusive no-dip payoff and a principal leg that is capped at 100, so
coupons accrued to maturity never raise the settlement amount. -/
theorem uncalled_payoff_at_most_par (memory dipAmer : Bool) (obsPerY : ℕ)
    (acBar coupBar dipBar dipStrk coupon T : ℚ) (path obsPrices : List ℚ)
    (h : (mcEvalCore memory dipAmer obsPerY acBar coupBar dipBar dipStrk coupon T
      path obsPrices).callIdx = none) :
    (mcEvalCore memory dipAmer obsPerY acBar coupBar dipBar dipStrk coupon T
      path obsPrices).payoff ≤ 100 :=
  mcEvalCore_uncalled_le_par memory dipAmer obsPerY acBar coupBar dipBar dipStrk coupon T
    path obsPrices h

/-- Witness for C10 at a concrete uncalled path. -/
theorem uncalled_payoff_at_most_par_witness :
    (mcEvalCore false false 1 150 100 70 70 (7/100) 1 [100, 50] [50]).payoff ≤ 100 :=
  uncalled_payoff_at_most_par false false 1 150 100 70 70 (7/100) 1 [100, 50] [50]
    (by norm_num [mcEvalCore, mcScan])

/-- Claim C9: two Monte Carlo runs with identical product, market, path count,
step count, numeric routines and the same seed produce identical present
values and identical diagnostics.  The embedding is seed-deterministic because
the source builds one fresh generator per run from the supplied seed
(`np.random.default_rng(seed)`, itself a deterministic function of the seed)
and touches no other mutable state. -/
theorem mc_determinism_two_runs (expFn logFn sqrtFn : ℚ → ℚ)
    (normalDraw : Option ℕ → ℕ → ℕ → ℚ) (prod : ProductInputs) (mkt : MarketInputs)
    (nPaths stepsPerYear : ℕ) (seed1 seed2 : ℕ) (h : seed1 = seed2) :
    price_autocall_mc expFn logFn sqrtFn normalDraw prod mkt nPaths stepsPerYear (some seed1)
      = price_autocall_mc expFn logFn sqrtFn normalDraw prod mkt nPaths stepsPerYear
          (some seed2) := by
  rw [h]

/-- Witness for C9 at concrete inputs and seed 42. -/
theorem mc_determinism_two_runs_witness :
    price_autocall_mc id id id (fun _ _ _ => 0)
        ⟨5, "American", 70, 70, 110, 100, 7, true, ObsFreq.annual⟩
        ⟨100, 0, 2/100, 20/100⟩ 2 4 (some 42)
      = price_autocall_mc id id id (fun _ _ _ => 0)
        ⟨5, "American", 70, 70, 110, 100, 7, true, ObsFreq.annual⟩
        ⟨100, 0, 2/100, 20/100⟩ 2 4 (some 42) :=
  mc_determinism_two_runs id id id (fun _ _ _ => 0)
    ⟨5, "American", 70, 70, 110, 100, 7, true, ObsFreq.annual⟩
    ⟨100, 0, 2/100, 20/100⟩ 2 4 42 42 rfl

/-- Claim C7: on a path of strictly positive prices the principal fraction in
the backtest OutcomeRecord lies in [0, 1], and for an uncalled Monte Carlo path
with a nonnegative coupon rate the settlement amount lies in [0, 100] per 100
notional: recovery is never negative and the loss leg never pays above par. -/
theorem principal_in_unit_interval (spec : ProductSpec) (levels : List ℚ)
    (memory dipAmer : Bool) (obsPerY : ℕ)
    (acBar coupBar dipBar dipStrk coupon T : ℚ) (path obsPrices : List ℚ)
    (hlast : 0 < levels.getLastD 0) (hcoupon : 0 ≤ coupon) (hsT : 0 < path.getLastD 0)
    (hmc : (mcEvalCore memory dipAmer obsPerY acBar coupBar dipBar dipStrk coupon T
      path obsPrices).callIdx = none) :
    (0 ≤ (btEval spec levels).principal ∧ (btEval spec levels).principal ≤ 1)
    ∧ (0 ≤ (mcEvalCore memory dipAmer obsPerY acBar coupBar dipBar dipStrk coupon T
          path obsPrices).payoff
      ∧ (mcEvalCore memory dipAmer obsPerY acBar coupBar dipBar dipStrk coupon T
          path obsPrices).payoff ≤ 100) := by
  constructor
  · unfold btEval
    cases h : (btLoop spec.memory_feature spec.coupon_barrier spec.autocall_barrier
        (spec.annual_coupon / observations_per_year spec.obs_frequency) levels 1 0 0 0).1 with
    | some j => simp [h]
    | none =>
      simp only [h]
      split
      · norm_num
      · rename_i hdb
        push_neg at hdb
        have hdbpos : 0 < spec.dip_barrier := lt_trans hlast hdb
        constructor
        · exact div_nonneg (le_of_lt hlast) (le_of_lt hdbpos)
        · exact le_of_lt ((div_lt_one hdbpos).mpr hdb)
  · constructor
    · cases hs : (mcScan acBar coupBar obsPrices 1 none).2 with
      | some j => simp only [mcEvalCore, hs] at hmc; simp at hmc
      | none =>
        simp only [mcEvalCore, hs]
        refine le_min ?_ ?_
        · unfold mcPayoffNoDip mcCouponsAtMaturity
          have hctp : (0 : ℚ) ≤
              (if memory = true then
                ((mcScan acBar coupBar obsPrices 1 none).1.countP id : ℚ)
              else if coupBar ≤ path.getLastD 0 then 1 else 0) := by
            split
            · positivity
            · split <;> norm_num
          nlinarith [mul_nonneg hcoupon hctp]
        · unfold mcPayoffFinal mcLossLeg
          split
          · refine le_min (by norm_num) ?_
            split
            · rename_i hlt
              have hds : 0 < dipStrk := lt_trans hsT hlt
              positivity
            · norm_num
          · norm_num
    · exact mcEvalCore_uncalled_le_par memory dipAmer obsPerY acBar coupBar dipBar dipStrk
        coupon T path obsPrices hmc

/-- Witness for C7 at a concrete uncalled path with a dipped terminal level. -/
theorem principal_in_unit_interval_witness :
    (0 ≤ (btEval ⟨1, ObsFreq.annual, 3/2, 1, 7/10, 7/100, false⟩ [1/2]).principal
      ∧ (btEval ⟨1, ObsFreq.annual, 3/2, 1, 7/10, 7/100, false⟩ [1/2]).principal ≤ 1)
    ∧ (0 ≤ (mcEvalCore false false 1 150 100 70 70 (7/100) 1 [100, 50] [50]).payoff
      ∧ (mcEvalCore false false 1 150 100 70 70 (7/100) 1 [100, 50] [50]).payoff ≤ 100) :=
  principal_in_unit_interval ⟨1, ObsFreq.annual, 3/2, 1, 7/10, 7/100, false⟩ [1/2]
    false false 1 150 100 70 70 (7/100) 1 [100, 50] [50]
    (by norm_num) (by norm_num) (by norm_num)
    (by norm_num [mcEvalCore, mcScan])

/-- Claim C8: a called contract terminates at its call observation: the
backtest record is classified "Autocall" (never "Capital Loss") with full
principal, and the Monte Carlo payoff of a called path is at least par and is
unchanged under any downside-barrier style, barrier or strike — the downside
leg is never applied to a called path. -/
theorem called_excludes_capital_loss (spec : ProductSpec) (levels : List ℚ) (j1 : ℕ)
    (memory dipAmer : Bool) (obsPerY : ℕ)
    (acBar coupBar dipBar dipStrk coupon T : ℚ) (path obsPrices : List ℚ) (j2 : ℕ)
    (hbt : (btEval spec levels).callIdx = some j1)
    (hmc : (mcEvalCore memory dipAmer obsPerY acBar coupBar dipBar dipStrk coupon T
      path obsPrices).callIdx = some j2)
    (hcoupon : 0 ≤ coupon) :
    ((btEval spec levels).outcomeType = "Autocall" ∧ (btEval spec levels).principal = 1)
    ∧ 100 ≤ (mcEvalCore memory dipAmer obsPerY acBar coupBar dipBar dipStrk coupon T
        path obsPrices).payoff
    ∧ ∀ (dipAmer' : Bool) (dipBar' dipStrk' : ℚ),
        (mcEvalCore memory dipAmer' obsPerY acBar coupBar dipBar' dipStrk' coupon T
          path obsPrices).payoff
        = (mcEvalCore memory dipAmer obsPerY acBar coupBar dipBar dipStrk coupon T
            path obsPrices).payoff := by
  refine ⟨?_, ?_, ?_⟩
  · unfold btEval at hbt ⊢
    cases h : (btLoop spec.memory_feature spec.coupon_barrier spec.autocall_barrier
        (spec.annual_coupon / observations_per_year spec.obs_frequency) levels 1 0 0 0).1 with
    | some j => simp [h]
    | none =>
      simp only [h] at hbt
      exfalso
      revert hbt
      split <;> simp
  · cases hs : (mcScan acBar coupBar obsPrices 1 none).2 with
    | none => simp only [mcEvalCore, hs] at hmc; simp at hmc
    | some j =>
      simp only [mcEvalCore, hs]
      unfold mcPayoffNoDip
      have hctp : (0 : ℚ) ≤
          (if memory = true then
            (((mcScan acBar coupBar obsPrices 1 none).1.take j).countP id : ℚ)
          else (j : ℚ) / (obsPerY : ℚ)) := by
        split
        · positivity
        · positivity
      nlinarith [mul_nonneg hcoupon hctp]
  · intro dipAmer' dipBar' dipStrk'
    cases hs : (mcScan acBar coupBar obsPrices 1 none).2 with
    | none => simp only [mcEvalCore, hs] at hmc; simp at hmc
    | some j => simp only [mcEvalCore, hs]

/-- Witness for C8 at a concrete called path in both engines. -/
theorem called_excludes_capital_loss_witness :
    (((btEval ⟨1, ObsFreq.annual, 3/2, 1, 7/10, 8/100, true⟩ [2]).outcomeType = "Autocall"
      ∧ (btEval ⟨1, ObsFreq.annual, 3/2, 1, 7/10, 8/100, true⟩ [2]).principal = 1)
    ∧ 100 ≤ (mcEvalCore true false 1 150 100 70 70 (8/100) 1 [100, 200] [200]).payoff
    ∧ ∀ (dipAmer' : Bool) (dipBar' dipStrk' : ℚ),
        (mcEvalCore true dipAmer' 1 150 100 dipBar' dipStrk' (8/100) 1 [100, 200] [200]).payoff
        = (mcEvalCore true false 1 150 100 70 70 (8/100) 1 [100, 200] [200]).payoff) :=
  called_excludes_capital_loss ⟨1, ObsFreq.annual, 3/2, 1, 7/10, 8/100, true⟩ [2] 1
    true false 1 150 100 70 70 (8/100) 1 [100, 200] [200] 1
    (by norm_num [btEval, btLoop]) (by norm_num [mcEvalCore, mcScan]) (by norm_num)

/-- Claim C3: on a path that is never autocalled, the Monte Carlo settlement is
100 when the downside barrier was not breached and `min(100, 100·S_T/strike)`
when it was; it always equals the lesser of the no-dip payoff and the
barrier-adjusted leg, so the downside leg can only reduce the no-dip outcome.
In the backtest the principal is 1 when the terminal level holds the barrier
and `min(1, level/barrier)` otherwise. -/
theorem maturity_downside_payoff (memory dipAmer : Bool) (obsPerY : ℕ)
    (acBar coupBar dipBar dipStrk coupon T : ℚ) (path obsPrices : List ℚ)
    (spec : ProductSpec) (levels : List ℚ)
    (hmc : (mcEvalCore memory dipAmer obsPerY acBar coupBar dipBar dipStrk coupon T
      path obsPrices).callIdx = none)
    (hds : 0 < dipStrk) (hcoupon : 0 ≤ coupon)
    (hbt : (btEval spec levels).callIdx = none) (hlast : 0 < levels.getLastD 0) :
    (mcDipped dipAmer dipBar path = false →
      (mcEvalCore memory dipAmer obsPerY acBar coupBar dipBar dipStrk coupon T
        path obsPrices).payoff = 100)
    ∧ (mcDipped dipAmer dipBar path = true →
      (mcEvalCore memory dipAmer obsPerY acBar coupBar dipBar dipStrk coupon T
        path obsPrices).payoff = min 100 (100 * (path.getLastD 0 / dipStrk)))
    ∧ (mcEvalCore memory dipAmer obsPerY acBar coupBar dipBar dipStrk coupon T
        path obsPrices).payoff
        = min (mcPayoffNoDip coupon (mcCouponsAtMaturity memory coupBar (path.getLastD 0)
            (mcEvalCore memory dipAmer obsPerY acBar coupBar dipBar dipStrk coupon T
              path obsPrices).flags))
          (mcPayoffFinal (mcDipped dipAmer dipBar path) dipStrk (path.getLastD 0))
    ∧ (mcEvalCore memory dipAmer obsPerY acBar coupBar dipBar dipStrk coupon T
        path obsPrices).payoff
        ≤ mcPayoffNoDip coupon (mcCouponsAtMaturity memory coupBar (path.getLastD 0)
            (mcEvalCore memory dipAmer obsPerY acBar coupBar dipBar dipStrk coupon T
              path obsPrices).flags)
    ∧ (spec.dip_barrier ≤ levels.getLastD 0 → (btEval spec levels).principal = 1)
    ∧ (levels.getLastD 0 < spec.dip_barrier →
        (btEval spec levels).principal = min 1 (levels.getLastD 0 / spec.dip_barrier)) := by
  have hnoDip : (100 : ℚ) ≤ mcPayoffNoDip coupon
      (mcCouponsAtMaturity memory coupBar (path.getLastD 0)
        (mcScan acBar coupBar obsPrices 1 none).1) := by
    unfold mcPayoffNoDip mcCouponsAtMaturity
    have hctp : (0 : ℚ) ≤
        (if memory = true then ((mcScan acBar coupBar obsPrices 1 none).1.countP id : ℚ)
        else if coupBar ≤ path.getLastD 0 then 1 else 0) := by
      split
      · positivity
      · split <;> norm_num
    nlinarith [mul_nonneg hcoupon hctp]
  cases hs : (mcScan acBar coupBar obsPrices 1 none).2 with
  | some j => simp only [mcEvalCore, hs] at hmc; simp at hmc
  | none =>
    simp only [mcEvalCore, hs]
    refine ⟨?_, ?_, ?_, min_le_left _ _, ?_, ?_⟩
    · intro hdip
      rw [mcPayoffFinal, if_neg (by simp [hdip])]
      exact min_eq_right hnoDip
    · intro hdip
      rw [mcPayoffFinal, if_pos hdip]
      have hfinal : mcLossLeg dipStrk (path.getLastD 0) = 100 ∨
          min 100 (mcLossLeg dipStrk (path.getLastD 0))
            = min 100 (100 * (path.getLastD 0 / dipStrk)) := by
        unfold mcLossLeg
        split
        · right; rfl
        · left; rfl
      have hmin100 : min 100 (mcLossLeg dipStrk (path.getLastD 0))
          = min 100 (100 * (path.getLastD 0 / dipStrk)) := by
        rcases hfinal with h1 | h1
        · rw [h1]
          have hge : (100 : ℚ) ≤ 100 * (path.getLastD 0 / dipStrk) := by
            unfold mcLossLeg at h1
            by_cases hlt : path.getLastD 0 < dipStrk
            · rw [if_pos hlt] at h1
              rw [h1]
            · push_neg at hlt
              have := (one_le_div hds).mpr hlt
              nlinarith
          rw [min_self, min_eq_left hge]
        · exact h1
      rw [← hmin100]
      refine min_eq_right (le_trans (min_le_left _ _) hnoDip)
    · trivial
    · intro hdb
      cases h : (btLoop spec.memory_feature spec.coupon_barrier spec.autocall_barrier
          (spec.annual_coupon / observations_per_year spec.obs_frequency)
          levels 1 0 0 0).1 with
      | some j => rw [btEval_callIdx, h] at hbt; exact absurd hbt (by simp)
      | none =>
        unfold btEval
        simp only [h]
        rw [if_pos hdb]
    · intro hdb
      cases h : (btLoop spec.memory_feature spec.coupon_barrier spec.autocall_barrier
          (spec.annual_coupon / observations_per_year spec.obs_frequency)
          levels 1 0 0 0).1 with
      | some j => rw [btEval_callIdx, h] at hbt; exact absurd hbt (by simp)
      | none =>
        have hdbpos : 0 < spec.dip_barrier := lt_trans hlast hdb
        have hlt1 : levels.getLastD 0 / spec.dip_barrier < 1 := (div_lt_one hdbpos).mpr hdb
        unfold btEval
        simp only [h]
        rw [if_neg (not_le.mpr hdb), min_eq_right (le_of_lt hlt1)]

/-- Witness for C3 at a concrete uncalled, dipped path in both engines. -/
theorem maturity_downside_payoff_witness :
    ((mcDipped false 70 [100, 50] = false →
      (mcEvalCore false false 1 150 100 70 70 (7/100) 1 [100, 50] [50]).payoff = 100)
    ∧ (mcDipped false 70 [100, 50] = true →
      (mcEvalCore false false 1 150 100 70 70 (7/100) 1 [100, 50] [50]).payoff
        = min 100 (100 * ([100, 50].getLastD 0 / 70)))
    ∧ (mcEvalCore false false 1 150 100 70 70 (7/100) 1 [100, 50] [50]).payoff
        = min (mcPayoffNoDip (7/100) (mcCouponsAtMaturity false 100 ([100, 50].getLastD 0)
            (mcEvalCore false false 1 150 100 70 70 (7/100) 1 [100, 50] [50]).flags))
          (mcPayoffFinal (mcDipped false 70 [100, 50]) 70 ([100, 50].getLastD 0))
    ∧ (mcEvalCore false false 1 150 100 70 70 (7/100) 1 [100, 50] [50]).payoff
        ≤ mcPayoffNoDip (7/100) (mcCouponsAtMaturity false 100 ([100, 50].getLastD 0)
            (mcEvalCore false false 1 150 100 70 70 (7/100) 1 [100, 50] [50]).flags)
    ∧ ((7:ℚ)/10 ≤ [(1:ℚ)/2].getLastD 0 →
        (btEval ⟨1, ObsFreq.annual, 3/2, 1, 7/10, 7/100, false⟩ [1/2]).principal = 1)
    ∧ ([(1:ℚ)/2].getLastD 0 < 7/10 →
        (btEval ⟨1, ObsFreq.annual, 3/2, 1, 7/10, 7/100, false⟩ [1/2]).principal
          = min 1 ([(1:ℚ)/2].getLastD 0 / (7/10)))) :=
  maturity_downside_payoff false false 1 150 100 70 70 (7/100) 1 [100, 50] [50]
    ⟨1, ObsFreq.annual, 3/2, 1, 7/10, 7/100, false⟩ [1/2]
    (by norm_num [mcEvalCore, mcScan]) (by norm_num) (by norm_num)
    (by norm_num [btEval, btLoop]) (by norm_num)

/-- The coupon accumulator of the backtest loop follows the spec's coupon rule
step by step, for any starting accumulator and missed-coupon counter. -/
lemma btLoop_couponPaid_eq_spec (memory : Bool) (coupBar acBar perCoupon : ℚ) :
    ∀ (levels : List ℚ) (j : ℕ) (cp : ℚ) (cc ma : ℕ),
      (btLoop memory coupBar acBar perCoupon levels j cp cc ma).2.1
        = specCouponPaid memory coupBar acBar perCoupon levels cp ma := by
  intro levels
  induction levels with
  | nil => intro j cp cc ma; rfl
  | cons lvl rest ih =>
    intro j cp cc ma
    by_cases hcb : coupBar ≤ lvl <;> by_cases hac : acBar ≤ lvl <;>
      simp [btLoop, specCouponPaid, specCouponState, hcb, hac, ih]

/-- Claim C2 (amended): in the backtest evaluator the coupon accounting follows
the spec's rule exactly — at each observation while alive, if the level is at
or above the coupon barrier the coupon paid is
`(missed_count + 1) × annual_coupon / obs_per_year` and the missed counter
resets to 0, otherwise the counter increments when memory is on and the
coupon is forfeited when memory is off.  (The Monte Carlo evaluator does not
follow this rule; see the counterexample.) -/
theorem backtest_coupon_rule (spec : ProductSpec) (levels : List ℚ) :
    (btEval spec levels).couponPaid
      = specCouponPaid spec.memory_feature spec.coupon_barrier spec.autocall_barrier
          (spec.annual_coupon / observations_per_year spec.obs_frequency) levels 0 0 := by
  rw [btEval_couponPaid, btLoop_couponPaid_eq_spec]

/-- Counterexample to claim C2 as stated: with the memory feature on and
quarterly observations (`annual_coupon = 8%`), a single observation meeting
both barriers makes the Monte Carlo evaluator pay the full annual coupon
(payoff 108), not `(missed_count + 1) × annual_coupon / obs_per_year`
(payoff 102); the backtest evaluator on the same scenario pays 1/50 = 2% as
the rule requires. -/
theorem mc_coupon_rule_cex :
    (mcEvalCore true false 4 150 100 70 70 (8/100) 1 [100, 200] [200]).callIdx = some 1
    ∧ (mcEvalCore true false 4 150 100 70 70 (8/100) 1 [100, 200] [200]).payoff = 108
    ∧ ¬ ((108 : ℚ) = 100 + 100 * ((0 + 1) * ((8/100) / 4)))
    ∧ (btEval ⟨1, ObsFreq.quarterly, 3/2, 1, 7/10, 8/100, true⟩ [2]).couponPaid
        = (0 + 1) * ((8/100) / 4) := by
  refine ⟨?_, ?_, by norm_num, ?_⟩
  · norm_num [mcEvalCore, mcScan]
  · norm_num [mcEvalCore, mcScan, mcPayoffNoDip]
  · norm_num [btEval, btLoop, observations_per_year]

/-- The Monte Carlo observation scan (on absolute prices, barrier
`acFrac * s0`) and the backtest loop (on levels `s / s0`, barrier `acFrac`)
compute the same first-call index, whatever the coupon parameters and
accumulators. -/
lemma mcScan_btLoop_callIdx (memory : Bool) (s0 acFrac coupBarMC coupBarBT perCoupon : ℚ)
    (hs0 : 0 < s0) :
    ∀ (prices : List ℚ) (j : ℕ) (cp : ℚ) (cc ma : ℕ),
      (mcScan (acFrac * s0) coupBarMC prices j none).2
        = (btLoop memory coupBarBT acFrac perCoupon
            (prices.map (fun s => s / s0)) j cp cc ma).1 := by
  intro prices
  induction prices with
  | nil => intro j cp cc ma; rfl
  | cons s rest ih =>
    intro j cp cc ma
    by_cases hc : acFrac ≤ s / s0
    · have hc' : acFrac * s0 ≤ s := (le_div_iff₀ hs0).mp hc
      simp [mcScan, btLoop, hc, hc', mcScan_some]
    · have hc' : ¬ acFrac * s0 ≤ s := fun hx => hc ((le_div_iff₀ hs0).mpr hx)
      simp only [List.map_cons, mcScan, btLoop, Option.isNone_none, true_and]
      rw [if_neg hc', if_neg hc]
      exact ih (j + 1) _ _ _

/-- The last element of a mapped list is the image of the last element. -/
lemma list_map_getLastD (f : ℚ → ℚ) : ∀ (l : List ℚ), l ≠ [] → ∀ (d e : ℚ),
    (l.map f).getLastD d = f (l.getLastD e) := by
  intro l
  induction l with
  | nil => intro h; exact absurd rfl h
  | cons a t ih =>
    intro _ d e
    cases t with
    | nil => rfl
    | cons b u =>
      rw [List.map_cons, List.getLastD_cons, List.getLastD_cons]
      exact ih (by simp) (f a) a

/-- A called path pays at least par in the Monte Carlo machine (shared
helper). -/
lemma mcEvalCore_called_ge_par (memory dipAmer : Bool) (obsPerY : ℕ)
    (acBar coupBar dipBar dipStrk coupon T : ℚ) (path obsPrices : List ℚ) (j : ℕ)
    (hscan : (mcScan acBar coupBar obsPrices 1 none).2 = some j) (hcoupon : 0 ≤ coupon) :
    100 ≤ (mcEvalCore memory dipAmer obsPerY acBar coupBar dipBar dipStrk coupon T
      path obsPrices).payoff := by
  simp only [mcEvalCore, hscan]
  unfold mcPayoffNoDip
  have hctp : (0 : ℚ) ≤
      (if memory = true then
        (((mcScan acBar coupBar obsPrices 1 none).1.take j).countP id : ℚ)
      else (j : ℚ) / (obsPerY : ℚ)) := by
    split
    · positivity
    · positivity
  nlinarith [mul_nonneg hcoupon hctp]

/-- A called backtest path recovers full principal (shared helper). -/
lemma btEval_called_principal (spec : ProductSpec) (levels : List ℚ) (j : ℕ)
    (hbt : (btEval spec levels).callIdx = some j) :
    (btEval spec levels).principal = 1 := by
  cases h : (btLoop spec.memory_feature spec.coupon_barrier spec.autocall_barrier
      (spec.annual_coupon / observations_per_year spec.obs_frequency) levels 1 0 0 0).1 with
  | some i => unfold btEval; simp [h]
  | none => rw [btEval_callIdx, h] at hbt; exact absurd hbt (by simp)

/-- The principal of an uncalled backtest path, backtest.py lines 97-102
(shared helper). -/
lemma btEval_uncalled_principal (spec : ProductSpec) (levels : List ℚ)
    (hbt : (btEval spec levels).callIdx = none) :
    (btEval spec levels).principal
      = if spec.dip_barrier ≤ levels.getLastD 0 then 1
        else levels.getLastD 0 / spec.dip_barrier := by
  cases h : (btLoop spec.memory_feature spec.coupon_barrier spec.autocall_barrier
      (spec.annual_coupon / observations_per_year spec.obs_frequency) levels 1 0 0 0).1 with
  | some i => rw [btEval_callIdx, h] at hbt; exact absurd hbt (by simp)
  | none =>
    unfold btEval
    simp only [h]
    by_cases hc : spec.dip_barrier ≤ levels.getLastD 0
    · rw [if_pos hc, if_pos hc]
    · rw [if_neg hc, if_neg hc]

/-- With European monitoring and strike equal to the barrier, an uncalled path
settles at exactly the principal leg: 100 without a breach, else
`100 * S_T / barrier` (shared helper for the principal agreement). -/
lemma mcEvalCore_uncalled_payoff_eq (memory : Bool) (obsPerY : ℕ)
    (acBar coupBar dipBar coupon T : ℚ) (path obsPrices : List ℚ)
    (hscan : (mcScan acBar coupBar obsPrices 1 none).2 = none)
    (hcoupon : 0 ≤ coupon) (hsT : 0 < path.getLastD 0) :
    (mcEvalCore memory false obsPerY acBar coupBar dipBar dipBar coupon T
      path obsPrices).payoff
      = if dipBar ≤ path.getLastD 0 then 100 else 100 * (path.getLastD 0 / dipBar) := by
  have hnoDip : (100 : ℚ) ≤ mcPayoffNoDip coupon
      (mcCouponsAtMaturity memory coupBar (path.getLastD 0)
        (mcScan acBar coupBar obsPrices 1 none).1) := by
    unfold mcPayoffNoDip mcCouponsAtMaturity
    have hctp : (0 : ℚ) ≤
        (if memory = true then ((mcScan acBar coupBar obsPrices 1 none).1.countP id : ℚ)
        else if coupBar ≤ path.getLastD 0 then 1 else 0) := by
      split
      · positivity
      · split <;> norm_num
    nlinarith [mul_nonneg hcoupon hctp]
  simp only [mcEvalCore, hscan]
  by_cases hc : dipBar ≤ path.getLastD 0
  · rw [if_pos hc]
    have hdip : mcDipped false dipBar path = false := by
      unfold mcDipped
      rw [if_neg (by simp)]
      exact decide_eq_false (not_lt.mpr hc)
    rw [hdip]
    unfold mcPayoffFinal
    rw [if_neg (by simp)]
    exact min_eq_right hnoDip
  · push_neg at hc
    rw [if_neg (not_le.mpr hc)]
    have hdip : mcDipped false dipBar path = true := by
      unfold mcDipped
      rw [if_neg (by simp)]
      exact decide_eq_true hc
    rw [hdip]
    have hdbpos : 0 < dipBar := lt_trans hsT hc
    have hloss : mcLossLeg dipBar (path.getLastD 0) = 100 * (path.getLastD 0 / dipBar) := by
      unfold mcLossLeg
      rw [if_pos hc]
    have hle100 : 100 * (path.getLastD 0 / dipBar) ≤ 100 := by
      have h1 : path.getLastD 0 / dipBar ≤ 1 := le_of_lt ((div_lt_one hdbpos).mpr hc)
      nlinarith
    unfold mcPayoffFinal
    rw [if_pos rfl, hloss, min_eq_right hle100]
    exact min_eq_right (le_trans hle100 hnoDip)

/-- Claim C1 (amended): on a shared path the Monte Carlo per-path evaluator
and the backtest evaluator agree on the observation at which the contract is
called and on the principal fraction recovered — a called contract recovers
full principal in both engines (backtest principal 1, Monte Carlo payoff at
least par), and an uncalled path settles in the Monte Carlo at exactly
100 × the backtest principal, under the downside mapping the two engines
share (terminal-only monitoring with strike equal to the downside barrier,
which is what the backtest implements).  They do not agree on the total
coupon amount paid; see the counterexample. -/
theorem call_index_and_principal_agreement (prod : ProductInputs) (mkt : MarketInputs)
    (steps_per_year : ℕ) (path : List ℚ) (spec : ProductSpec)
    (hs0 : 0 < mkt.stock_price)
    (hac : spec.autocall_barrier = prod.autocall_barrier_pct / 100)
    (hdb : spec.dip_barrier = prod.dip_barrier_pct / 100)
    (hstrike : prod.dip_strike_pct = prod.dip_barrier_pct)
    (heuro : lower_starts_amer prod.dip_style = false)
    (hcoupon : 0 ≤ prod.annual_coupon_pct)
    (hsT : 0 < path.getLastD 0)
    (hlastobs : (mc_obs_prices prod steps_per_year path).getLastD 0 = path.getLastD 0) :
    (mcEvalPath prod mkt steps_per_year path).callIdx
      = (btEval spec ((mc_obs_prices prod steps_per_year path).map
          (fun s => s / mkt.stock_price))).callIdx
    ∧ (∀ j, (mcEvalPath prod mkt steps_per_year path).callIdx = some j →
        (btEval spec ((mc_obs_prices prod steps_per_year path).map
          (fun s => s / mkt.stock_price))).principal = 1
        ∧ 100 ≤ (mcEvalPath prod mkt steps_per_year path).payoff)
    ∧ ((mcEvalPath prod mkt steps_per_year path).callIdx = none →
        (mcEvalPath prod mkt steps_per_year path).payoff
          = 100 * (btEval spec ((mc_obs_prices prod steps_per_year path).map
              (fun s => s / mkt.stock_price))).principal) := by
  have hcoupon' : (0 : ℚ) ≤ prod.annual_coupon_pct / 100 := by positivity
  have hidx : (mcEvalPath prod mkt steps_per_year path).callIdx
      = (btEval spec ((mc_obs_prices prod steps_per_year path).map
          (fun s => s / mkt.stock_price))).callIdx := by
    simp only [mcEvalPath]
    rw [mcEvalCore_callIdx, btEval_callIdx, hac]
    exact mcScan_btLoop_callIdx spec.memory_feature mkt.stock_price
      (prod.autocall_barrier_pct / 100) (prod.coupon_barrier_pct / 100 * mkt.stock_price)
      spec.coupon_barrier (spec.annual_coupon / observations_per_year spec.obs_frequency)
      hs0 (mc_obs_prices prod steps_per_year path) 1 0 0 0
  refine ⟨hidx, ?_, ?_⟩
  · intro j hj
    refine ⟨btEval_called_principal spec _ j (hidx.symm.trans hj), ?_⟩
    have hscan : (mcScan (prod.autocall_barrier_pct / 100 * mkt.stock_price)
        (prod.coupon_barrier_pct / 100 * mkt.stock_price)
        (mc_obs_prices prod steps_per_year path) 1 none).2 = some j := by
      have h := hj
      simp only [mcEvalPath] at h
      rw [mcEvalCore_callIdx] at h
      exact h
    simp only [mcEvalPath]
    exact mcEvalCore_called_ge_par _ _ _ _ _ _ _ _ _ _ _ j hscan hcoupon'
  · intro hnone
    have hscan : (mcScan (prod.autocall_barrier_pct / 100 * mkt.stock_price)
        (prod.coupon_barrier_pct / 100 * mkt.stock_price)
        (mc_obs_prices prod steps_per_year path) 1 none).2 = none := by
      have h := hnone
      simp only [mcEvalPath] at h
      rw [mcEvalCore_callIdx] at h
      exact h
    have hobs_ne : mc_obs_prices prod steps_per_year path ≠ [] := by
      intro h
      rw [h] at hlastobs
      have h0 : (0 : ℚ) = path.getLastD 0 := hlastobs
      rw [← h0] at hsT
      exact lt_irrefl 0 hsT
    have hlastlv : ((mc_obs_prices prod steps_per_year path).map
        (fun s => s / mkt.stock_price)).getLastD 0
        = path.getLastD 0 / mkt.stock_price := by
      rw [list_map_getLastD (fun s => s / mkt.stock_price)
          (mc_obs_prices prod steps_per_year path) hobs_ne 0 0, hlastobs]
    have hbtnone : (btEval spec ((mc_obs_prices prod steps_per_year path).map
        (fun s => s / mkt.stock_price))).callIdx = none := hidx.symm.trans hnone
    rw [btEval_uncalled_principal spec _ hbtnone, hlastlv]
    simp only [mcEvalPath]
    rw [heuro, hstrike]
    rw [mcEvalCore_uncalled_payoff_eq prod.memory_feature
        (observations_per_year prod.obs_frequency)
        (prod.autocall_barrier_pct / 100 * mkt.stock_price)
        (prod.coupon_barrier_pct / 100 * mkt.stock_price)
        (prod.dip_barrier_pct / 100 * mkt.stock_price)
        (prod.annual_coupon_pct / 100) prod.maturity_years
        path (mc_obs_prices prod steps_per_year path) hscan hcoupon' hsT]
    rw [hdb]
    by_cases hcond : prod.dip_barrier_pct / 100 ≤ path.getLastD 0 / mkt.stock_price
    · have hcond' : prod.dip_barrier_pct / 100 * mkt.stock_price ≤ path.getLastD 0 :=
        (le_div_iff₀ hs0).mp hcond
      rw [if_pos hcond, if_pos hcond']
      norm_num
    · have hcond' : ¬ prod.dip_barrier_pct / 100 * mkt.stock_price ≤ path.getLastD 0 :=
        fun hx => hcond ((le_div_iff₀ hs0).mpr hx)
      rw [if_neg hcond, if_neg hcond']
      ring

/-- Witness for the amended C1 at a concrete shared contract on an uncalled,
dipped path: both engines leave the contract uncalled and the Monte Carlo
settlement equals 100 × the backtest principal. -/
theorem call_index_and_principal_agreement_witness :
    ((mcEvalPath ⟨1, "European", 70, 70, 110, 100, 8, true, ObsFreq.annual⟩
        ⟨100, 0, 0, 0⟩ 1 [100, 50]).callIdx
      = (btEval ⟨1, ObsFreq.annual, 110/100, 70/100, 70/100, 8/100, true⟩
          ((mc_obs_prices ⟨1, "European", 70, 70, 110, 100, 8, true, ObsFreq.annual⟩
            1 [100, 50]).map (fun s => s / (100 : ℚ)))).callIdx
    ∧ (∀ j, (mcEvalPath ⟨1, "European", 70, 70, 110, 100, 8, true, ObsFreq.annual⟩
        ⟨100, 0, 0, 0⟩ 1 [100, 50]).callIdx = some j →
        (btEval ⟨1, ObsFreq.annual, 110/100, 70/100, 70/100, 8/100, true⟩
          ((mc_obs_prices ⟨1, "European", 70, 70, 110, 100, 8, true, ObsFreq.annual⟩
            1 [100, 50]).map (fun s => s / (100 : ℚ)))).principal = 1
        ∧ 100 ≤ (mcEvalPath ⟨1, "European", 70, 70, 110, 100, 8, true, ObsFreq.annual⟩
            ⟨100, 0, 0, 0⟩ 1 [100, 50]).payoff)
    ∧ ((mcEvalPath ⟨1, "European", 70, 70, 110, 100, 8, true, ObsFreq.annual⟩
        ⟨100, 0, 0, 0⟩ 1 [100, 50]).callIdx = none →
        (mcEvalPath ⟨1, "European", 70, 70, 110, 100, 8, true, ObsFreq.annual⟩
          ⟨100, 0, 0, 0⟩ 1 [100, 50]).payoff
          = 100 * (btEval ⟨1, ObsFreq.annual, 110/100, 70/100, 70/100, 8/100, true⟩
              ((mc_obs_prices ⟨1, "European", 70, 70, 110, 100, 8, true, ObsFreq.annual⟩
                1 [100, 50]).map (fun s => s / (100 : ℚ)))).principal)) :=
  call_index_and_principal_agreement
    ⟨1, "European", 70, 70, 110, 100, 8, true, ObsFreq.annual⟩ ⟨100, 0, 0, 0⟩ 1 [100, 50]
    ⟨1, ObsFreq.annual, 110/100, 70/100, 70/100, 8/100, true⟩
    (by norm_num) rfl rfl rfl (by decide) (by norm_num)
    (by norm_num [List.getLastD_cons])
    (by norm_num [mc_obs_prices, build_obs_steps, pythonRound, observations_per_year,
      List.getLastD_cons])

/-- Counterexample to claim C1 as stated: a quarterly memory contract whose
path misses the coupon barrier at observation 1 and autocalls at
observation 2.  Both evaluators call at observation 2, but the Monte Carlo
payoff carries coupons of 8 per 100 notional (one flagged observation at the
full annual 8%) while the backtest pays 4 per 100 (two caught-up quarterly
coupons of 2%): the total coupon amounts differ, so the payoff state machines
are not identical. -/
theorem coupon_amount_disagreement_cex :
    (mcEvalCore true false 4 150 100 70 70 (8/100) 1 [100, 50, 200] [50, 200]).callIdx = some 2
    ∧ (btEval ⟨1, ObsFreq.quarterly, 3/2, 1, 7/10, 8/100, true⟩ [1/2, 2]).callIdx = some 2
    ∧ (mcEvalCore true false 4 150 100 70 70 (8/100) 1 [100, 50, 200] [50, 200]).payoff - 100
        = 8
    ∧ 100 * (btEval ⟨1, ObsFreq.quarterly, 3/2, 1, 7/10, 8/100, true⟩ [1/2, 2]).couponPaid
        = 4
    ∧ ¬ ((mcEvalCore true false 4 150 100 70 70 (8/100) 1 [100, 50, 200] [50, 200]).payoff
          - 100
        = 100 * (btEval ⟨1, ObsFreq.quarterly, 3/2, 1, 7/10, 8/100, true⟩
            [1/2, 2]).couponPaid) := by
  have h1 : (mcEvalCore true false 4 150 100 70 70 (8/100) 1
      [100, 50, 200] [50, 200]).payoff = 108 := by
    norm_num [mcEvalCore, mcScan, mcPayoffNoDip]
  have h2 : (btEval ⟨1, ObsFreq.quarterly, 3/2, 1, 7/10, 8/100, true⟩
      [1/2, 2]).couponPaid = 1/25 := by
    norm_num [btEval, btLoop, observations_per_year]
  refine ⟨?_, ?_, ?_, ?_, ?_⟩
  · norm_num [mcEvalCore, mcScan]
  · norm_num [btEval, btLoop, observations_per_year]
  · rw [h1]; norm_num
  · rw [h2]; norm_num
  · rw [h1, h2]; norm_num

/-- Claim C5 (amended): for positive maturity the Monte Carlo grid schedule has
exactly `ceil(maturity * obs_per_year)` points, while the backtest calendar
schedule has `round(maturity * obs_per_year)` points (Python's half-to-even
round), and rebuilding either schedule from identical inputs yields the
identical schedule. -/
theorem schedule_lengths (m : ℚ) (_hm : 0 < m) (steps_per_year : ℕ) (freq : ObsFreq)
    (launch : ℚ) (idx : List ℚ) :
    (build_obs_steps m steps_per_year freq).length
      = (⌈m * (observations_per_year freq : ℚ)⌉).toNat
    ∧ (build_observation_dates launch freq m idx).length
      = (pythonRound (m * (observations_per_year freq : ℚ))).toNat
    ∧ build_obs_steps m steps_per_year freq = build_obs_steps m steps_per_year freq
    ∧ build_observation_dates launch freq m idx
      = build_observation_dates launch freq m idx := by
  refine ⟨?_, ?_, rfl, rfl⟩
  · simp only [build_obs_steps, List.length_map, List.length_range']
  · simp only [build_observation_dates, nominal_observation_dates, List.length_map,
      List.length_range']

/-- Witness for the amended C5 at maturity 1, annual frequency. -/
theorem schedule_lengths_witness :
    ((build_obs_steps 1 252 ObsFreq.annual).length
      = (⌈(1 : ℚ) * (observations_per_year ObsFreq.annual : ℚ)⌉).toNat
    ∧ (build_observation_dates 0 ObsFreq.annual 1 [0, 12]).length
      = (pythonRound ((1 : ℚ) * (observations_per_year ObsFreq.annual : ℚ))).toNat
    ∧ build_obs_steps 1 252 ObsFreq.annual = build_obs_steps 1 252 ObsFreq.annual
    ∧ build_observation_dates 0 ObsFreq.annual 1 [0, 12]
      = build_observation_dates 0 ObsFreq.annual 1 [0, 12]) :=
  schedule_lengths 1 (by norm_num) 252 ObsFreq.annual 0 [0, 12]

/-- Counterexample to claim C5 as stated: at maturity 1.25 years with annual
observations the grid schedule has `ceil(1.25) = 2` points but the calendar
schedule has `round(1.25) = 1` point, so the two schedule builders do not both
produce `ceil(maturity * obs_per_year)` points. -/
theorem calendar_schedule_length_cex :
    (build_obs_steps (5/4) 252 ObsFreq.annual).length = 2
    ∧ (build_observation_dates 0 ObsFreq.annual (5/4) [0, 20]).length = 1
    ∧ (build_observation_dates 0 ObsFreq.annual (5/4) [0, 20]).length
        ≠ (⌈(5/4 : ℚ) * (observations_per_year ObsFreq.annual : ℚ)⌉).toNat := by
  have h0 : (⌈(5/4 : ℚ)⌉) = 2 := by
    rw [Int.ceil_eq_iff]
    norm_num
  have hceil : (⌈(5/4 : ℚ) * (observations_per_year ObsFreq.annual : ℚ)⌉).toNat = 2 := by
    norm_num [observations_per_year, h0]
    rfl
  have hround : pythonRound ((5/4 : ℚ) * (observations_per_year ObsFreq.annual : ℚ)) = 1 := by
    norm_num [pythonRound, observations_per_year]
  refine ⟨?_, ?_, ?_⟩
  · simp only [build_obs_steps, List.length_map, List.length_range', observations_per_year]
    norm_num [h0]
    rfl
  · simp only [build_observation_dates, nominal_observation_dates, List.length_map,
      List.length_range', observations_per_year, Nat.cast_one, mul_one] at hround ⊢
    rw [hround]
    rfl
  · simp only [build_observation_dates, nominal_observation_dates, List.length_map,
      List.length_range', observations_per_year, Nat.cast_one, mul_one] at hround hceil ⊢
    rw [hround, hceil]
    norm_num

/-- Claim C4: the code raises instead of returning an empty result.  With a
price history too short for any feasible launch, `run_backtest` builds
`DataFrame.from_records([])` — a frame with no columns — and
`sort_values("launch")` on it raises `KeyError: launch` instead of returning
zero OutcomeRecords. -/
theorem run_backtest_empty_launches_raises :
    run_backtest [(0, 100), (1, 101)] [0, 1] ⟨5, ObsFreq.annual, 110/100, 1, 7/10, 7/100, true⟩
      = Except.error "KeyError: launch" := by
  norm_num [run_backtest, gen_launch_dates, pdFromRecords, pdSortValues]
  rfl

/-- The default value of `getLastD` is irrelevant on a nonempty list. -/
lemma list_getLastD_irrel : ∀ (l : List ℚ) (d e : ℚ), l ≠ [] → l.getLastD d = l.getLastD e := by
  intro l
  induction l with
  | nil => intro d e h; exact absurd rfl h
  | cons a t ih =>
    intro d e _
    cases t with
    | nil => rfl
    | cons b u => simp only [List.getLastD_cons]

/-- Pandas `prices.index[-1]` is an element of a nonempty index. -/
lemma list_getLastD_mem : ∀ (l : List ℚ) (d : ℚ), l ≠ [] → l.getLastD d ∈ l := by
  intro l
  induction l with
  | nil => intro d h; exact absurd rfl h
  | cons a t ih =>
    intro d _
    cases t with
    | nil => simp [List.getLastD]
    | cons b u =>
      rw [List.getLastD_cons]
      exact List.mem_cons_of_mem a (ih a (by simp))

/-- Rounding an integer-valued rational is the identity. -/
lemma pythonRound_intCast (n : ℤ) : pythonRound (n : ℚ) = n := by
  unfold pythonRound
  rw [Int.floor_intCast]
  norm_num

/-- Rounding a natural-valued rational is the identity, as a `toNat` fact. -/
lemma pythonRound_natCast_toNat (n : ℕ) : (pythonRound (n : ℚ)).toNat = n := by
  have h : ((n : ℚ)) = ((n : ℤ) : ℚ) := by push_cast; ring
  rw [h, pythonRound_intCast]
  exact Int.toNat_natCast n

/-- On a strictly sorted index, if some index entry is at or after the target
then `snapDate` returns the earliest index entry at or after the target. -/
lemma snapDate_spec : ∀ (idx : List ℚ), idx.Sorted (· < ·) → ∀ (t : ℚ),
    (∃ d ∈ idx, t ≤ d) →
    snapDate idx t ∈ idx ∧ t ≤ snapDate idx t
      ∧ ∀ e ∈ idx, t ≤ e → snapDate idx t ≤ e := by
  intro idx
  induction idx with
  | nil =>
    intro _ t h
    rcases h with ⟨d, hd, _⟩
    simp at hd
  | cons a l ih =>
    intro hsort t hex
    rw [List.sorted_cons] at hsort
    obtain ⟨hal, hsl⟩ := hsort
    by_cases hmem : t ∈ a :: l
    · unfold snapDate
      rw [if_pos hmem]
      exact ⟨hmem, le_refl t, fun e _ he => he⟩
    · by_cases hta : t ≤ a
      · have hcount : searchsorted (a :: l) t = 0 := by
          unfold searchsorted
          rw [List.countP_cons]
          have h1 : ¬ a < t := not_lt.mpr hta
          have h2 : l.countP (fun d => decide (d < t)) = 0 := by
            rw [List.countP_eq_zero]
            intro e he
            simp only [decide_eq_true_eq]
            exact not_lt.mpr (le_trans hta (le_of_lt (hal e he)))
          simp [h1, h2]
        have hsnap : snapDate (a :: l) t = a := by
          unfold snapDate
          rw [if_neg hmem, hcount]
          rw [if_neg (by simp)]
          rfl
        rw [hsnap]
        refine ⟨List.mem_cons_self a l, hta, ?_⟩
        intro e he _
        rcases List.mem_cons.mp he with rfl | hel
        · exact le_refl _
        · exact le_of_lt (hal e hel)
      · push_neg at hta
        have hnl : l ≠ [] := by
          rcases hex with ⟨d, hd, htd⟩
          rcases List.mem_cons.mp hd with rfl | hdl
          · exact absurd htd (not_le.mpr hta)
          · intro h; rw [h] at hdl; simp at hdl
        have hexl : ∃ d ∈ l, t ≤ d := by
          rcases hex with ⟨d, hd, htd⟩
          rcases List.mem_cons.mp hd with rfl | hdl
          · exact absurd htd (not_le.mpr hta)
          · exact ⟨d, hdl, htd⟩
        have htl : t ∉ l := fun h => hmem (List.mem_cons_of_mem a h)
        have hss : searchsorted (a :: l) t = searchsorted l t + 1 := by
          unfold searchsorted
          rw [List.countP_cons]
          simp [hta]
        have heq : snapDate (a :: l) t = snapDate l t := by
          unfold snapDate
          rw [if_neg hmem, if_neg htl, hss]
          by_cases hlen : l.length ≤ searchsorted l t
          · rw [if_pos (by simp; omega), if_pos hlen]
            cases l with
            | nil => exact absurd rfl hnl
            | cons b u =>
              rw [List.getLastD_cons]
              exact list_getLastD_irrel (b :: u) b 0 (by simp)
          · rw [if_neg (by simp; omega), if_neg hlen]
            rw [List.getD_cons_succ]
        rw [heq]
        obtain ⟨h1, h2, h3⟩ := ih hsl t hexl
        refine ⟨List.mem_cons_of_mem a h1, h2, ?_⟩
        intro e he hte
        rcases List.mem_cons.mp he with rfl | hel
        · exact absurd hte (not_le.mpr hta)
        · exact h3 e hel hte

/-- Every launch kept by the feasibility filter of `_gen_launch_dates` has its
full contract lifetime inside the available history. -/
lemma gen_launch_dates_feasible (prices_index anchors : List ℚ) (m : ℚ) (l : ℚ)
    (hl : l ∈ gen_launch_dates prices_index anchors m) :
    l + 12 * m ≤ prices_index.getLastD 0 := by
  unfold gen_launch_dates at hl
  rw [List.mem_filterMap] at hl
  obtain ⟨d, _, hf⟩ := hl
  simp only at hf
  split_ifs at hf with h1 h2 h3
  · injection hf with h; subst h; exact h1
  · injection hf with h; subst h; exact h3

/-- Positivity of the observation count per year. -/
lemma observations_per_year_pos (freq : ObsFreq) : 0 < observations_per_year freq := by
  cases freq <;> simp [observations_per_year]

/-- For an integral maturity of `M` years every nominal observation date is at
most `launch + 12 * M` months. -/
lemma nominal_observation_dates_le (launch : ℚ) (freq : ObsFreq) (M : ℕ) :
    ∀ t ∈ nominal_observation_dates launch freq (M : ℚ), t ≤ launch + 12 * M := by
  intro t ht
  unfold nominal_observation_dates at ht
  rw [List.mem_map] at ht
  obtain ⟨k, hk, rfl⟩ := ht
  rw [List.mem_range'_1] at hk
  have hobs : (pythonRound ((M : ℚ) * (observations_per_year freq : ℚ))).toNat
      = M * observations_per_year freq := by
    have h : ((M : ℚ) * (observations_per_year freq : ℚ))
        = ((M * observations_per_year freq : ℕ) : ℚ) := by push_cast; ring
    rw [h, pythonRound_natCast_toNat]
  rw [hobs] at hk
  have hk2 : k ≤ M * observations_per_year freq := by omega
  have hdiv : (12 * k) / observations_per_year freq ≤ 12 * M := by
    calc (12 * k) / observations_per_year freq
        ≤ (12 * (M * observations_per_year freq)) / observations_per_year freq :=
          Nat.div_le_div_right (Nat.mul_le_mul_left 12 hk2)
      _ = 12 * M := by
          rw [← mul_assoc]
          exact Nat.mul_div_cancel _ (observations_per_year_pos freq)
  have hcast : (((12 * k) / observations_per_year freq : ℕ) : ℚ) ≤ ((12 * M : ℕ) : ℚ) := by
    exact_mod_cast hdiv
  push_cast at hcast
  linarith

/-- Claim C6: for a launch kept by the backtest feasibility filter (maturity an
integral number of years, as the calendar arithmetic requires), every nominal
observation date is snapped to the earliest trading date on or after it: the
snapped date is in the index, is never before the nominal date, and is minimal
among index dates on or after the nominal date. -/
theorem calendar_observations_on_or_after (prices_index anchors : List ℚ) (M : ℕ)
    (freq : ObsFreq) (launch : ℚ)
    (hs : prices_index.Sorted (· < ·)) (hne : prices_index ≠ [])
    (hl : launch ∈ gen_launch_dates prices_index anchors (M : ℚ)) :
    build_observation_dates launch freq (M : ℚ) prices_index
      = (nominal_observation_dates launch freq (M : ℚ)).map (snapDate prices_index)
    ∧ ∀ t ∈ nominal_observation_dates launch freq (M : ℚ),
        snapDate prices_index t ∈ prices_index ∧ t ≤ snapDate prices_index t
        ∧ ∀ e ∈ prices_index, t ≤ e → snapDate prices_index t ≤ e := by
  refine ⟨rfl, ?_⟩
  intro t ht
  have hfeas := gen_launch_dates_feasible prices_index anchors (M : ℚ) launch hl
  have hle : t ≤ prices_index.getLastD 0 :=
    le_trans (nominal_observation_dates_le launch freq M t ht) hfeas
  exact snapDate_spec prices_index hs t
    ⟨prices_index.getLastD 0, list_getLastD_mem prices_index 0 hne, hle⟩

/-- Witness for C6 on a three-date index with a feasible one-year launch. -/
theorem calendar_observations_on_or_after_witness :
    build_observation_dates 0 ObsFreq.annual ((1 : ℕ) : ℚ) [0, 6, 12]
      = (nominal_observation_dates 0 ObsFreq.annual ((1 : ℕ) : ℚ)).map (snapDate [0, 6, 12])
    ∧ ∀ t ∈ nominal_observation_dates 0 ObsFreq.annual ((1 : ℕ) : ℚ),
        snapDate [0, 6, 12] t ∈ [(0 : ℚ), 6, 12] ∧ t ≤ snapDate [0, 6, 12] t
        ∧ ∀ e ∈ [(0 : ℚ), 6, 12], t ≤ e → snapDate [0, 6, 12] t ≤ e :=
  calendar_observations_on_or_after [0, 6, 12] [0] 1 ObsFreq.annual 0
    (by norm_num [List.sorted_cons]) (by simp)
    (by norm_num [gen_launch_dates, List.filterMap])
